import Mathlib

/-!
Verification of the CodeToTeams extension core: a shallow embedding of
the recipient-resolution routine (`contactsService.js`), the token
acquisition and sign-out flows (`authentication.js`), the recipient
cache and manual-recipient merge (`extension.js`), and the snippet
formatter (`extension.js`).  Network and library collaborators (the
Graph endpoints, the MSAL client, the filesystem) are passed in as
explicit inputs, mirroring the request/response contracts the code
consumes.
-/

/- ### String primitives

JavaScript `toLowerCase`, `includes`, `localeCompare` modelled over the
character data of the string.  `localeCompare` is modelled as the
case-insensitive lexicographic comparison (lowercased strings first,
raw strings as tie break), which matches its use as a case and locale
aware ordering on ASCII display names. -/

/-- ASCII lowercasing of one character, the effect of `toLowerCase`. -/
def lowerChar (c : Char) : Char :=
  if 65 ≤ c.toNat ∧ c.toNat ≤ 90 then Char.ofNat (c.toNat + 32) else c

/-- Model of `String.prototype.toLowerCase`. -/
def lowerStr (s : String) : String := ⟨s.data.map lowerChar⟩

/-- Strict lexicographic comparison of character lists by code point. -/
def strLtAux : List Char → List Char → Bool
  | [], [] => false
  | [], _ :: _ => true
  | _ :: _, [] => false
  | a :: as, b :: bs =>
    if a.toNat < b.toNat then true
    else if b.toNat < a.toNat then false
    else strLtAux as bs

/-- Strict lexicographic comparison of strings by code point. -/
def strLt (a b : String) : Bool := strLtAux a.data b.data

/-- Model of `a.localeCompare(b)`: compare lowercased strings, break
ties on the raw strings. -/
def localeCompare (a b : String) : Int :=
  if strLt (lowerStr a) (lowerStr b) then -1
  else if strLt (lowerStr b) (lowerStr a) then 1
  else if strLt a b then -1
  else if strLt b a then 1
  else 0

/-- Does `pat` start the list `l`? -/
def startsWithL : List Char → List Char → Bool
  | [], _ => true
  | _ :: _, [] => false
  | a :: as, b :: bs => a == b && startsWithL as bs

/-- Does `pat` occur anywhere in `l`? -/
def hasSub (pat : List Char) : List Char → Bool
  | [] => startsWithL pat []
  | c :: rest => startsWithL pat (c :: rest) || hasSub pat rest

/-- Model of `s.includes(t)`. -/
def strIncludes (s t : String) : Bool := hasSub t.data s.data

/-- JavaScript `a || b` on strings, where the empty string is falsy. -/
def jsOr (a b : String) : String := if a = "" then b else a

deriving instance DecidableEq for Except

/- ### Data model -/

/-- Normalized recipient shape produced by the contact sources
(`contactsService.js`); `isManual` marks entries added from settings in
`extension.js`.  Fields the source leaves absent are modelled as `""`
(both are falsy in the consuming code). -/
structure Recipient where
  id : String
  displayName : String := ""
  email : String := ""
  department : String := ""
  company : String := ""
  jobTitle : String := ""
  userPrincipalName : String := ""
  isManual : Bool := false
deriving Repr, DecidableEq

/-- Ordering used by `uniqueRecipients.sort((a, b) =>
a.displayName.localeCompare(b.displayName))`. -/
abbrev dnLe (a b : Recipient) : Prop :=
  localeCompare a.displayName b.displayName ≤ 0

instance : DecidableRel dnLe := fun a b =>
  Int.decLe (localeCompare a.displayName b.displayName) 0

/-- The dedup invariant claimed for resolved recipient sets: the two
entries have different lowercased emails. -/
abbrev emailKeyNe (a b : Recipient) : Prop :=
  lowerStr a.email ≠ lowerStr b.email

/-- Sort used at the end of `getPotentialRecipients` (JavaScript
`Array.prototype.sort` is stable, as is insertion sort). -/
def sortByDisplayName (l : List Recipient) : List Recipient :=
  List.insertionSort dnLe l

/- ### JavaScript Map model

`Map.set` keeps the original insertion position on key collision and
appends new keys; `Array.from(map.values())` lists values in insertion
order. -/

abbrev JsMap := List (String × Recipient)

/-- Model of `map.set(k, v)`. -/
def mapSet (m : JsMap) (k : String) (v : Recipient) : JsMap :=
  if m.any (fun p => decide (p.1 = k)) then
    m.map (fun p => if p.1 = k then (k, v) else p)
  else m ++ [(k, v)]

/-- Model of `map.has(k)`. -/
def mapHas (m : JsMap) (k : String) : Bool :=
  m.any (fun p => decide (p.1 = k))

/-- Model of `Array.from(map.values())`. -/
def mapValues (m : JsMap) : List Recipient := m.map Prod.snd

/- ### Graph responses (contactsService.js) -/

/-- Error shape observed by the catch blocks: an optional HTTP status
(`error.response?.status`) and a message. -/
structure GraphError where
  status : Option Nat := none
  msg : String := ""
deriving Repr, DecidableEq

/-- Raw record of `GET /me/contacts` (`contactsService.js`). -/
structure RawContact where
  id : String
  displayName : String := ""
  emailAddresses : List String := []
  department : String := ""
  companyName : String := ""
  jobTitle : String := ""
deriving Repr, DecidableEq

/-- Raw record of `GET /me/people` (`contactsService.js`). -/
structure RawPerson where
  id : String
  displayName : String := ""
  scoredEmailAddresses : List String := []
  department : String := ""
  companyName : String := ""
  jobTitle : String := ""
  userPrincipalName : String := ""
deriving Repr, DecidableEq

/-- Raw record of `GET /users` (`contactsService.js`). -/
structure RawUser where
  id : String
  displayName : String := ""
  mail : String := ""
  userPrincipalName : String := ""
  department : String := ""
  jobTitle : String := ""
deriving Repr, DecidableEq

/-- Profile returned by `GET /me`. -/
structure UserProfile where
  id : String
  displayName : String := ""
  mail : String := ""
  userPrincipalName : String := ""
  department : String := ""
  jobTitle : String := ""
deriving Repr, DecidableEq

/-- Mapping of one direct contact inside `getContacts`; records with no
email address are dropped by the preceding `filter`. -/
def contactToRecipient (c : RawContact) : Option Recipient :=
  match c.emailAddresses with
  | [] => none
  | e :: _ =>
    some { id := c.id, displayName := jsOr c.displayName e, email := e,
           department := c.department, company := c.companyName,
           jobTitle := c.jobTitle, userPrincipalName := e }

/-- Mapping of one people-API record inside `getContacts`. -/
def personToRecipient (p : RawPerson) : Option Recipient :=
  match p.scoredEmailAddresses with
  | [] => none
  | e :: _ =>
    some { id := p.id, displayName := p.displayName, email := e,
           department := p.department, company := p.companyName,
           jobTitle := p.jobTitle,
           userPrincipalName := jsOr p.userPrincipalName e }

/-- Mapping of one users-API record inside `getContacts` and
`getColleagues`; records with neither `mail` nor `userPrincipalName`
are dropped. -/
def userToRecipient (u : RawUser) : Option Recipient :=
  if u.mail = "" ∧ u.userPrincipalName = "" then none
  else
    some { id := u.id, displayName := u.displayName,
           email := jsOr u.mail u.userPrincipalName,
           department := u.department, jobTitle := u.jobTitle,
           userPrincipalName := u.userPrincipalName }

/-- Account-type detection at the top of `getContacts`. -/
def isWorkAccount (upn : String) : Bool :=
  strIncludes upn "#EXT#" ||
    (strIncludes upn "@" && !strIncludes upn "outlook.com" &&
      !strIncludes upn "hotmail.com" && !strIncludes upn "live.com")

/-- The current user mapped as a recipient (`getContacts`, last-resort
branch). -/
def currentUserRecipient (u : UserProfile) : Recipient :=
  { id := u.id, displayName := jsOr u.displayName (jsOr u.mail u.userPrincipalName),
    email := jsOr u.mail u.userPrincipalName, department := u.department,
    jobTitle := u.jobTitle, userPrincipalName := u.userPrincipalName }

/-- Appending a later source while dropping records whose lowercased
email already occurred (the `emailSet` filter in `getContacts`). -/
def dedupAppend (existing newOnes : List Recipient) : List Recipient :=
  let emailSet := existing.map (fun c => lowerStr c.email)
  existing ++ newOnes.filter (fun p => decide (lowerStr p.email ∉ emailSet))

/-- The endpoint outcomes consumed by one `getContacts` call.  `Except`
models a rejected request, the inner `Option` models a response whose
`data.value` is missing. -/
structure ContactsEnv where
  profile : Except GraphError UserProfile
  contactsResp : Except GraphError (Option (List RawContact))
  peopleResp : Except GraphError (Option (List RawPerson))
  usersResp : Except GraphError (Option (List RawUser))

/-- Embedding of `getContacts` (`src/contactsService.js`): profile
probe, then direct contacts, then people (deduplicated against earlier
results), then — for work accounts with fewer than five hits — the
users fallback, then the current user, with per-source failures
swallowed and an error only when everything came up empty. -/
def getContacts (env : ContactsEnv) : Except GraphError (List Recipient) :=
  match env.profile with
  | .error _ =>
    .error { msg := "Failed to get contacts: Unable to access your profile. You may need to sign out and sign in again." }
  | .ok userProfile =>
    let accountWork := isWorkAccount userProfile.userPrincipalName
    let contacts : List Recipient := []
    let contacts := match env.contactsResp with
      | .ok (some value) => contacts ++ value.filterMap contactToRecipient
      | _ => contacts
    let contacts := match env.peopleResp with
      | .ok (some value) => dedupAppend contacts (value.filterMap personToRecipient)
      | _ => contacts
    let contacts :=
      if accountWork ∧ contacts.length < 5 then
        match env.usersResp with
        | .ok (some value) => dedupAppend contacts (value.filterMap userToRecipient)
        | _ => contacts
      else contacts
    let contacts :=
      if contacts.length = 0 ∧ (userProfile.mail ≠ "" ∨ userProfile.userPrincipalName ≠ "") then
        [currentUserRecipient userProfile]
      else contacts
    if contacts.length = 0 then
      .error { msg := "Failed to get contacts: Unable to fetch any contacts or users from Microsoft Graph API" }
    else .ok contacts

/-- The endpoint outcomes consumed by one `getColleagues` call. -/
structure ColleaguesEnv where
  orgResp : Except GraphError (Option (List Unit))
  usersResp : Except GraphError (Option (List RawUser))

/-- Embedding of `getColleagues` (`src/contactsService.js`): empty on a
missing organization record or on any failure, never an error. -/
def getColleagues (env : ColleaguesEnv) : List Recipient :=
  match env.orgResp with
  | .error _ => []
  | .ok none => []
  | .ok (some orgs) =>
    if orgs.length = 0 then []
    else match env.usersResp with
      | .ok (some value) => value.filterMap userToRecipient
      | _ => []

/-- Inserting one source into the dedup map of `getPotentialRecipients`
(`if (contact.email) emailMap.set(contact.email.toLowerCase(), contact)`). -/
def insertRecipients (m : JsMap) (l : List Recipient) : JsMap :=
  l.foldl (fun m c => if c.email ≠ "" then mapSet m (lowerStr c.email) c else m) m

/-- The keyed merge of `getPotentialRecipients`: contacts first, then
colleagues, colleagues overwriting on key collision. -/
def mergeByEmail (contacts colleagues : List Recipient) : JsMap :=
  insertRecipients (insertRecipients [] contacts) colleagues

/-- The two sub-environments of one `getPotentialRecipients` call. -/
structure RecipientsEnv where
  contactsEnv : ContactsEnv
  colleaguesEnv : ColleaguesEnv

/-- The tail of `getPotentialRecipients` after both sources settled: an
error when both are empty, otherwise merge keyed by lowercased email
and sort by display name. -/
def resolveMerge (contacts colleagues : List Recipient) :
    Except GraphError (List Recipient) :=
  if contacts.length = 0 ∧ colleagues.length = 0 then
    .error { msg := "Failed to get contacts: Could not find any contacts. Please check your permissions or try adding contacts manually." }
  else
    .ok (sortByDisplayName (mapValues (mergeByEmail contacts colleagues)))

/-- Embedding of `getPotentialRecipients` (`src/contactsService.js`):
both sources fetched with failures downgraded to `[]`, then the merge
and sort of `resolveMerge`. -/
def getPotentialRecipients (env : RecipientsEnv) : Except GraphError (List Recipient) :=
  resolveMerge
    (match getContacts env.contactsEnv with
      | .error _ => []
      | .ok l => l)
    (getColleagues env.colleaguesEnv)

/- ### extension.js: recipient cache and manual merge -/

/-- Cache lifetime of the module-level recipients cache. -/
def CACHE_EXPIRY_MS : Nat := 10 * 60 * 1000

/-- The recipient object built for a manual email in `getRecipients`. -/
def manualEntry (email : String) : Recipient :=
  { id := "manual-" ++ (lowerStr email), displayName := email, email := email,
    isManual := true }

/-- Inserting API recipients into the merge map of `getRecipients`
(no email guard in `extension.js`). -/
def insertApiRecipients (m : JsMap) (l : List Recipient) : JsMap :=
  l.foldl (fun m r => mapSet m (lowerStr r.email) r) m

/-- Inserting manual recipients: they never overwrite an existing key. -/
def insertManuals (m : JsMap) (l : List String) : JsMap :=
  l.foldl (fun m email =>
    if mapHas m (lowerStr email) then m
    else mapSet m (lowerStr email) (manualEntry email)) m

/-- The fresh-fetch merge of `getRecipients`: API recipients keyed by
lowercased email, then manual recipients filling gaps only. -/
def mergeManual (apiRecipients : List Recipient) (manualRecipients : List String) :
    List Recipient :=
  mapValues (insertManuals (insertApiRecipients [] apiRecipients) manualRecipients)

/-- The cache-validity test at the top of `getRecipients`. -/
def cacheValid (recipientsCache : Option (List Recipient)) (lastFetchTime : Option Nat)
    (now : Nat) : Bool :=
  match recipientsCache, lastFetchTime with
  | some _, some t => decide (now - t < CACHE_EXPIRY_MS)
  | _, _ => false

/-- Embedding of `getRecipients` (`src/extension.js`): serve the cached
set while fresh, otherwise merge the API result with the configured
manual recipients and update the cache.  Returns the result together
with the new cache state. -/
def getRecipients (recipientsCache : Option (List Recipient)) (lastFetchTime : Option Nat)
    (now : Nat) (apiRecipients : List Recipient) (manualRecipients : List String) :
    List Recipient × Option (List Recipient) × Option Nat :=
  if cacheValid recipientsCache lastFetchTime now then
    (recipientsCache.getD [], recipientsCache, lastFetchTime)
  else
    let r := mergeManual apiRecipients manualRecipients
    (r, some r, some now)

/-- Embedding of `formatCodeSnippet` (`src/extension.js`):
`languageId || ''` then a fenced code block. -/
def formatCodeSnippet (text : String) (languageId : Option String) : String :=
  let language := match languageId with
    | some l => l
    | none => ""
  "```" ++ language ++ "\n" ++ text ++ "\n```"

/- ### authentication.js -/

/-- On-disk state owned by the token cache store: the storage directory
and the cache file content, when present. -/
structure FsState where
  dirExists : Bool
  cacheFile : Option String
deriving Repr, DecidableEq

/-- Failure classes of silent acquisition surfaced by the
authentication library. -/
inductive MsalError where
  | invalidGrant
  | noTokensFound
  | other (msg : String)
deriving Repr, DecidableEq

/-- A cached account. -/
structure Account where
  homeAccountId : String
deriving Repr, DecidableEq

/-- A token response of the authentication library. -/
structure TokenResponse where
  accessToken : String
  grantedScopes : List String
deriving Repr, DecidableEq

/-- The authentication-library client as consumed by
`getSilentToken`: the cached accounts and the silent-acquisition
behavior. -/
structure MsalClient where
  accounts : List Account
  acquireTokenSilent : Account → List String → Except MsalError TokenResponse

/-- Scopes of the silent request in `getSilentToken`
(`src/authentication.js`, line 73). -/
def silentScopes : List String := ["Chat.ReadWrite", "User.Read"]

/-- Scopes of the interactive flow in `getAccessToken`
(`src/authentication.js`, lines 106 and 282). -/
def interactiveScopes : List String := ["Chat.ReadWrite", "User.Read", "ChatMessage.Send"]

/-- Embedding of `getSilentToken` (`src/authentication.js`): take the
first cached account, request `silentScopes`, return the token when one
comes back, and swallow every error into a `null` miss. -/
def getSilentToken (cca : MsalClient) (st : FsState) : Option String × FsState :=
  match cca.accounts with
  | [] => (none, st)
  | a :: _ =>
    match cca.acquireTokenSilent a silentScopes with
    | .ok tr => if tr.accessToken ≠ "" then (some tr.accessToken, st) else (none, st)
    | .error _ => (none, st)

/-- One token held in the library cache. -/
structure CachedToken where
  account : Account
  accessToken : String
  grantedScopes : List String
deriving Repr, DecidableEq

/-- Model of the authentication library silent-acquisition contract: a
cached token is returned when its account matches and its granted
scopes cover every requested scope, otherwise the lookup fails. -/
def msalSilent (cache : List CachedToken) (a : Account) (scopes : List String) :
    Except MsalError TokenResponse :=
  match cache.find? (fun t =>
      decide (t.account = a) && scopes.all (fun s => t.grantedScopes.contains s)) with
  | some t => .ok { accessToken := t.accessToken, grantedScopes := t.grantedScopes }
  | none => .error .noTokensFound

/-- A client over a concrete token cache. -/
def msalClientOf (cache : List CachedToken) : MsalClient :=
  { accounts := cache.map (fun t => t.account),
    acquireTokenSilent := msalSilent cache }

/-- Collaborator behavior consumed by `initialize`: whether the
authentication library can deserialize a given cache blob. -/
structure InitEnv where
  parses : String → Bool

/-- State after `initialize`: the filesystem plus whether the in-memory
cache was populated from disk. -/
structure AuthState where
  fs : FsState
  memCacheLoaded : Bool
deriving Repr, DecidableEq

/-- Embedding of `initialize` (`src/authentication.js`): create the
storage directory, then try to read and deserialize the cache file; a
failure is logged and execution continues with the in-memory cache
empty.  The function never throws and never writes or deletes the
file. -/
def initializeAuth (env : InitEnv) (fs : FsState) : AuthState :=
  let fs := { fs with dirExists := true }
  match fs.cacheFile with
  | none => { fs := fs, memCacheLoaded := false }
  | some blob =>
    if env.parses blob then { fs := fs, memCacheLoaded := true }
    else { fs := fs, memCacheLoaded := false }

/-- Collaborator behavior consumed by `signOut`: the account
enumeration outcome and each account removal outcome. -/
structure SignOutEnv where
  getAllAccountsResult : Except String (List Account)
  removeAccountResult : Account → Except String Unit

/-- The sequential removal loop of `signOut`: stops at the first
throwing removal. -/
def removeAll (env : SignOutEnv) : List Account → Except String Unit
  | [] => .ok ()
  | a :: rest =>
    match env.removeAccountResult a with
    | .error e => .error e
    | .ok _ => removeAll env rest

/-- Embedding of `signOut` (`src/authentication.js`): enumerate and
remove the cached accounts, then delete the cache file; any throw lands
in the catch block, which reports the error (second component `true`)
and returns without reaching the deletion. -/
def signOut (env : SignOutEnv) (fs : FsState) : FsState × Bool :=
  match env.getAllAccountsResult with
  | .error _ => (fs, true)
  | .ok accounts =>
    match removeAll env accounts with
    | .error _ => (fs, true)
    | .ok _ =>
      match fs.cacheFile with
      | some _ => ({ fs with cacheFile := none }, false)
      | none => (fs, false)

/- ### The local callback listener (getAccessToken, step 3) -/

/-- Externally visible events hitting the local HTTP server: an inbound
request (pathname and optional `code` query parameter) or a
listener-level error. -/
inductive ServerEvent where
  | request (pathname : String) (code : Option String)
  | errorEvent (msg : String)
deriving Repr, DecidableEq

/-- Settlement state of the promise wrapping the server. -/
inductive PromiseState where
  | pending
  | resolved (code : String)
  | rejected (msg : String)
deriving Repr, DecidableEq

/-- Observable server state: whether the listener is open, how many
times `server.close()` ran, and the promise settlement. -/
structure ServerState where
  isOpen : Bool
  closeCalls : Nat
  promise : PromiseState
deriving Repr, DecidableEq

/-- Settle a promise: only the first resolution or rejection wins. -/
def settle (p : PromiseState) (outcome : PromiseState) : PromiseState :=
  match p with
  | .pending => outcome
  | _ => p

/-- One step of the server of `getAccessToken` (`src/authentication.js`,
lines 115 to 277): a request on the callback path is answered, settles
the promise (resolve with the code, reject without one) and closes the
server; any other request is ignored; the `error` handler rejects the
promise and nothing else. -/
def handleEvent (s : ServerState) (e : ServerEvent) : ServerState :=
  match e with
  | .errorEvent msg =>
    { s with promise := settle s.promise (.rejected ("Server error: " ++ msg)) }
  | .request pathname code =>
    if s.isOpen then
      if pathname = "/auth/callback" then
        let p := match code with
          | some c => settle s.promise (.resolved c)
          | none => settle s.promise (.rejected "No authorization code received")
        { isOpen := false, closeCalls := s.closeCalls + 1, promise := p }
      else s
    else s

/-- The listener opened with a pending promise. -/
def initialServer : ServerState :=
  { isOpen := true, closeCalls := 0, promise := .pending }

/-- The server driven by a sequence of events. -/
def runServer (events : List ServerEvent) : ServerState :=
  events.foldl handleEvent initialServer

/- ### Invariants used by the dedup proofs -/

/-- A well-formed dedup map: keys are pairwise distinct and every entry
is keyed by the lowercased email of its value. -/
def goodMap (m : JsMap) : Prop :=
  (m.map Prod.fst).Nodup ∧ ∀ p ∈ m, p.1 = lowerStr p.2.email

/- ### Concrete scenario inputs used by the claim checks -/

/-- A direct contact with department Sales (merge-priority example). -/
def c3Contact : RawContact :=
  { id := "c1", displayName := "Alice Contact", emailAddresses := ["a@x.com"],
    department := "Sales" }

/-- A people-API record with the same email in different case and
department Eng. -/
def c3Person : RawPerson :=
  { id := "p1", displayName := "Alice Person", scoredEmailAddresses := ["A@X.com"],
    department := "Eng" }

/-- A personal-account profile (no users fallback). -/
def c3Profile : UserProfile := { id := "me", userPrincipalName := "me@outlook.com" }

/-- Endpoint outcomes: profile ok, direct contacts and people both
succeed with one record each, users rejected. -/
def c3Env : ContactsEnv :=
  { profile := .ok c3Profile,
    contactsResp := .ok (some [c3Contact]),
    peopleResp := .ok (some [c3Person]),
    usersResp := .error {} }

/-- The recipient `getContacts` builds from `c3Contact`. -/
def c3ContactRecipient : Recipient :=
  { id := "c1", displayName := "Alice Contact", email := "a@x.com",
    department := "Sales", userPrincipalName := "a@x.com" }

/-- A directory user with the same email in different case and
department Eng, as fetched by `getColleagues`. -/
def c3User : RawUser :=
  { id := "u1", displayName := "Alice Colleague", mail := "A@X.com",
    userPrincipalName := "al@x.com", department := "Eng" }

/-- The recipient `getColleagues` builds from `c3User`. -/
def c3ColleagueRecipient : Recipient :=
  { id := "u1", displayName := "Alice Colleague", email := "A@X.com",
    department := "Eng", userPrincipalName := "al@x.com" }

/-- Resolver environment where the colleague shares the contact's
lowercased email. -/
def c3RecEnv : RecipientsEnv :=
  { contactsEnv := c3Env,
    colleaguesEnv := { orgResp := .ok (some [()]),
                       usersResp := .ok (some [c3User]) } }

/-- Resolver environment with one contact and no colleagues. -/
def c1Env : RecipientsEnv :=
  { contactsEnv := c3Env,
    colleaguesEnv := { orgResp := .error {}, usersResp := .error {} } }

/-- A cached token granted exactly the two silent scopes, lacking
`ChatMessage.Send`. -/
def c2Token : CachedToken :=
  { account := { homeAccountId := "home1" }, accessToken := "tok",
    grantedScopes := ["Chat.ReadWrite", "User.Read"] }

/-- A filesystem state with a cache file present. -/
def c2Fs : FsState := { dirExists := true, cacheFile := some "cacheblob" }

/-- A client whose silent acquisition fails with `invalid_grant`. -/
def c4Client : MsalClient :=
  { accounts := [{ homeAccountId := "acct" }],
    acquireTokenSilent := fun _ _ => .error .invalidGrant }

/-- Contacts with display names Zed and Amy (sorting example). -/
def c5ZedContact : RawContact :=
  { id := "z1", displayName := "Zed", emailAddresses := ["z@x.com"] }

def c5AmyContact : RawContact :=
  { id := "a1", displayName := "Amy", emailAddresses := ["amy2@x.com"] }

/-- The recipients `getContacts` builds from the Zed and Amy contacts. -/
def c5ZedRecipient : Recipient :=
  { id := "z1", displayName := "Zed", email := "z@x.com", userPrincipalName := "z@x.com" }

def c5AmyRecipient : Recipient :=
  { id := "a1", displayName := "Amy", email := "amy2@x.com", userPrincipalName := "amy2@x.com" }

/-- Resolver environment returning only the Zed recipient. -/
def c5EnvZed : RecipientsEnv :=
  { contactsEnv := { profile := .ok c3Profile,
                     contactsResp := .ok (some [c5ZedContact]),
                     peopleResp := .error {},
                     usersResp := .error {} },
    colleaguesEnv := { orgResp := .error {}, usersResp := .error {} } }

/-- Resolver environment returning the Zed and Amy recipients. -/
def c5EnvBoth : RecipientsEnv :=
  { contactsEnv := { profile := .ok c3Profile,
                     contactsResp := .ok (some [c5ZedContact, c5AmyContact]),
                     peopleResp := .error {},
                     usersResp := .error {} },
    colleaguesEnv := { orgResp := .error {}, usersResp := .error {} } }

/-- A listener error before any callback request (for example the port
is already in use). -/
def c6Events : List ServerEvent := [.errorEvent "listen EADDRINUSE"]

/-- A deserializer that rejects every blob (corrupt cache file). -/
def c7Env : InitEnv := { parses := fun _ => false }

/-- A filesystem state holding an unparseable cache file. -/
def c7Fs : FsState := { dirExists := true, cacheFile := some "corrupt" }

/-- A sign-out collaborator whose account removal always throws. -/
def c9Env : SignOutEnv :=
  { getAllAccountsResult := .ok [{ homeAccountId := "acct" }],
    removeAccountResult := fun _ => .error "removal failed" }

/-- A people record for the end-to-end partial-failure scenario. -/
def c8Person : RawPerson :=
  { id := "p8", displayName := "Only Person", scoredEmailAddresses := ["only@x.com"],
    jobTitle := "Dev" }

/-- The recipient `getContacts` builds from `c8Person`. -/
def c8Recipient : Recipient :=
  { id := "p8", displayName := "Only Person", email := "only@x.com",
    jobTitle := "Dev", userPrincipalName := "only@x.com" }

/-- Scenario environment: profile ok, contacts rejected with 403,
people ok with one entry, everything else failing. -/
def c8Env : RecipientsEnv :=
  { contactsEnv := { profile := .ok c3Profile,
                     contactsResp := .error { status := some 403 },
                     peopleResp := .ok (some [c8Person]),
                     usersResp := .error {} },
    colleaguesEnv := { orgResp := .error {}, usersResp := .error {} } }

/- ### Order facts about the comparison model -/

theorem charEq_of_toNat_eq {a b : Char} (h : a.toNat = b.toNat) : a = b := by
  unfold Char.toNat at h
  exact Char.eq_of_val_eq (UInt32.toNat.inj h)

theorem strLtAux_cons_iff (a b : Char) (as bs : List Char) :
    strLtAux (a :: as) (b :: bs) = true ↔
      a.toNat < b.toNat ∨ (a.toNat = b.toNat ∧ strLtAux as bs = true) := by
  simp only [strLtAux]
  rcases Nat.lt_trichotomy a.toNat b.toNat with h | h | h
  · simp [h]
  · simp [h, Nat.lt_irrefl]
  · rw [if_neg (by omega), if_pos h]
    simp only [Bool.false_eq_true, false_iff]
    rintro (hc | ⟨hc, _⟩) <;> omega

theorem strLtAux_asymm : ∀ l₁ l₂, strLtAux l₁ l₂ = true → strLtAux l₂ l₁ = false := by
  intro l₁
  induction l₁ with
  | nil =>
    intro l₂ h
    cases l₂ with
    | nil => exact absurd h (by simp [strLtAux])
    | cons b bs => rfl
  | cons a as ih =>
    intro l₂ h
    cases l₂ with
    | nil => exact absurd h (by simp [strLtAux])
    | cons b bs =>
      rw [strLtAux_cons_iff] at h
      cases hval : strLtAux (b :: bs) (a :: as) with
      | false => rfl
      | true =>
        exfalso
        rw [strLtAux_cons_iff] at hval
        rcases h with h | ⟨he, hr⟩ <;> rcases hval with hv | ⟨hev, hrv⟩
        · omega
        · omega
        · omega
        · rw [ih bs hr] at hrv; exact Bool.noConfusion hrv

theorem strLtAux_trans :
    ∀ l₁ l₂ l₃, strLtAux l₁ l₂ = true → strLtAux l₂ l₃ = true → strLtAux l₁ l₃ = true := by
  intro l₁
  induction l₁ with
  | nil =>
    intro l₂ l₃ h₁ h₂
    cases l₂ with
    | nil => exact absurd h₁ (by simp [strLtAux])
    | cons b bs =>
      cases l₃ with
      | nil => exact absurd h₂ (by simp [strLtAux])
      | cons c cs => rfl
  | cons a as ih =>
    intro l₂ l₃ h₁ h₂
    cases l₂ with
    | nil => exact absurd h₁ (by simp [strLtAux])
    | cons b bs =>
      cases l₃ with
      | nil => exact absurd h₂ (by simp [strLtAux])
      | cons c cs =>
        rw [strLtAux_cons_iff] at h₁ h₂ ⊢
        rcases h₁ with h₁ | ⟨he₁, hr₁⟩ <;> rcases h₂ with h₂ | ⟨he₂, hr₂⟩
        · exact Or.inl (by omega)
        · exact Or.inl (by omega)
        · exact Or.inl (by omega)
        · exact Or.inr ⟨by omega, ih bs cs hr₁ hr₂⟩

theorem strLtAux_eq_of_both_false :
    ∀ l₁ l₂, strLtAux l₁ l₂ = false → strLtAux l₂ l₁ = false → l₁ = l₂ := by
  intro l₁
  induction l₁ with
  | nil =>
    intro l₂ h₁ _
    cases l₂ with
    | nil => rfl
    | cons b bs => exact absurd h₁ (by simp [strLtAux])
  | cons a as ih =>
    intro l₂ h₁ h₂
    cases l₂ with
    | nil => exact absurd h₂ (by simp [strLtAux])
    | cons b bs =>
      have hab : a.toNat = b.toNat := by
        by_contra hne
        rcases Nat.lt_or_ge a.toNat b.toNat with h | h
        · rw [(strLtAux_cons_iff a b as bs).mpr (Or.inl h)] at h₁
          exact Bool.noConfusion h₁
        · have hba : b.toNat < a.toNat := by omega
          rw [(strLtAux_cons_iff b a bs as).mpr (Or.inl hba)] at h₂
          exact Bool.noConfusion h₂
      have has : strLtAux as bs = false := by
        cases hval : strLtAux as bs with
        | false => rfl
        | true =>
          rw [(strLtAux_cons_iff a b as bs).mpr (Or.inr ⟨hab, hval⟩)] at h₁
          exact Bool.noConfusion h₁
      have hbs : strLtAux bs as = false := by
        cases hval : strLtAux bs as with
        | false => rfl
        | true =>
          rw [(strLtAux_cons_iff b a bs as).mpr (Or.inr ⟨hab.symm, hval⟩)] at h₂
          exact Bool.noConfusion h₂
      rw [charEq_of_toNat_eq hab, ih bs has hbs]

theorem strLt_asymm {a b : String} (h : strLt a b = true) : strLt b a = false :=
  strLtAux_asymm a.data b.data h

theorem strLt_trans {a b c : String} (h₁ : strLt a b = true) (h₂ : strLt b c = true) :
    strLt a c = true :=
  strLtAux_trans a.data b.data c.data h₁ h₂

theorem strLt_eq_of_both_false {a b : String} (h₁ : strLt a b = false)
    (h₂ : strLt b a = false) : a = b := by
  cases a; cases b
  exact congrArg String.mk (strLtAux_eq_of_both_false _ _ h₁ h₂)

theorem strLt_irrefl (a : String) : strLt a a = false := by
  cases hval : strLt a a with
  | false => rfl
  | true => rw [strLt_asymm hval] at hval; exact Bool.noConfusion hval

theorem strLt_false_trans {a b c : String} (h₁ : strLt b a = false)
    (h₂ : strLt c b = false) : strLt c a = false := by
  cases hval : strLt c a with
  | false => rfl
  | true =>
    exfalso
    cases hab : strLt a b with
    | true =>
      have := strLt_trans hval hab
      rw [this] at h₂
      exact Bool.noConfusion h₂
    | false =>
      have : a = b := strLt_eq_of_both_false hab h₁
      rw [this] at hval
      rw [hval] at h₂
      exact Bool.noConfusion h₂

theorem localeCompare_nonpos_iff (x y : String) :
    localeCompare x y ≤ 0 ↔
      (strLt (lowerStr x) (lowerStr y) = true ∨
        (lowerStr x = lowerStr y ∧ strLt y x = false)) := by
  unfold localeCompare
  split_ifs with h1 h2 h3 h4
  · exact iff_of_true (by norm_num) (Or.inl h1)
  · refine iff_of_false (by norm_num) ?_
    rintro (h | ⟨he, _⟩)
    · rw [h] at h1; exact h1 rfl
    · rw [he, strLt_irrefl] at h2; exact Bool.noConfusion h2
  · have he : lowerStr x = lowerStr y :=
      strLt_eq_of_both_false (Bool.eq_false_iff.mpr h1) (Bool.eq_false_iff.mpr h2)
    exact iff_of_true (by norm_num) (Or.inr ⟨he, strLt_asymm h3⟩)
  · refine iff_of_false (by norm_num) ?_
    rintro (h | ⟨_, ht⟩)
    · exact h1 h
    · rw [ht] at h4; exact Bool.noConfusion h4
  · have he : lowerStr x = lowerStr y :=
      strLt_eq_of_both_false (Bool.eq_false_iff.mpr h1) (Bool.eq_false_iff.mpr h2)
    exact iff_of_true (by norm_num) (Or.inr ⟨he, Bool.eq_false_iff.mpr h4⟩)

theorem dnLe_total (a b : Recipient) : dnLe a b ∨ dnLe b a := by
  unfold dnLe
  rw [localeCompare_nonpos_iff, localeCompare_nonpos_iff]
  cases h1 : strLt (lowerStr a.displayName) (lowerStr b.displayName) with
  | true => exact Or.inl (Or.inl rfl)
  | false =>
    cases h2 : strLt (lowerStr b.displayName) (lowerStr a.displayName) with
    | true => exact Or.inr (Or.inl rfl)
    | false =>
      have he := strLt_eq_of_both_false h1 h2
      cases h3 : strLt b.displayName a.displayName with
      | false => exact Or.inl (Or.inr ⟨he, rfl⟩)
      | true => exact Or.inr (Or.inr ⟨he.symm, strLt_asymm h3⟩)

theorem dnLe_trans (a b c : Recipient) (h₁ : dnLe a b) (h₂ : dnLe b c) : dnLe a c := by
  unfold dnLe at *
  rw [localeCompare_nonpos_iff] at h₁ h₂ ⊢
  rcases h₁ with h₁ | ⟨e₁, t₁⟩ <;> rcases h₂ with h₂ | ⟨e₂, t₂⟩
  · exact Or.inl (strLt_trans h₁ h₂)
  · exact Or.inl (e₂ ▸ h₁)
  · exact Or.inl (e₁ ▸ h₂)
  · exact Or.inr ⟨e₁.trans e₂, strLt_false_trans t₁ t₂⟩

/- ### Dedup map invariants -/

theorem goodMap_nil : goodMap [] := by
  constructor
  · exact List.nodup_nil
  · intro p hp; exact absurd hp (List.not_mem_nil p)

theorem goodMap_mapSet (m : JsMap) (k : String) (v : Recipient)
    (hk : k = lowerStr v.email) (h : goodMap m) : goodMap (mapSet m k v) := by
  obtain ⟨h1, h2⟩ := h
  unfold mapSet
  split
  case isTrue hany =>
    constructor
    · have hkeys : (m.map (fun p => if p.1 = k then (k, v) else p)).map Prod.fst =
          m.map Prod.fst := by
        rw [List.map_map]
        apply List.map_congr_left
        intro p _
        by_cases hpk : p.1 = k
        · simp [hpk]
        · simp [hpk]
      rw [hkeys]
      exact h1
    · intro q hq
      rcases List.mem_map.mp hq with ⟨p, hp, hpq⟩
      by_cases hpk : p.1 = k
      · rw [if_pos hpk] at hpq
        rw [← hpq, hk]
      · rw [if_neg hpk] at hpq
        rw [← hpq]
        exact h2 p hp
  case isFalse hany =>
    constructor
    · rw [List.map_append]
      apply List.Nodup.append h1 (by simp)
      intro x hx hxk
      simp only [List.map_cons, List.map_nil, List.mem_singleton] at hxk
      rcases List.mem_map.mp hx with ⟨p, hp, hpx⟩
      apply hany
      rw [List.any_eq_true]
      exact ⟨p, hp, by rw [decide_eq_true_iff, hpx, hxk]⟩
    · intro q hq
      rcases List.mem_append.mp hq with hq | hq
      · exact h2 q hq
      · simp only [List.mem_singleton] at hq
        rw [hq, hk]

theorem goodMap_insertRecipients (l : List Recipient) (m : JsMap) (h : goodMap m) :
    goodMap (insertRecipients m l) := by
  induction l generalizing m with
  | nil => exact h
  | cons c rest ih =>
    unfold insertRecipients
    rw [List.foldl_cons]
    apply ih
    by_cases hc : c.email ≠ ""
    · rw [if_pos hc]
      exact goodMap_mapSet m (lowerStr c.email) c rfl h
    · rw [if_neg hc]
      exact h

theorem goodMap_insertApiRecipients (l : List Recipient) (m : JsMap) (h : goodMap m) :
    goodMap (insertApiRecipients m l) := by
  induction l generalizing m with
  | nil => exact h
  | cons c rest ih =>
    unfold insertApiRecipients
    rw [List.foldl_cons]
    exact ih _ (goodMap_mapSet m (lowerStr c.email) c rfl h)

theorem goodMap_insertManuals (l : List String) (m : JsMap) (h : goodMap m) :
    goodMap (insertManuals m l) := by
  induction l generalizing m with
  | nil => exact h
  | cons e rest ih =>
    unfold insertManuals
    rw [List.foldl_cons]
    apply ih
    by_cases he : mapHas m (lowerStr e) = true
    · rw [if_pos he]
      exact h
    · rw [if_neg he]
      exact goodMap_mapSet m (lowerStr e) (manualEntry e) rfl h

theorem goodMap_values_pairwise (m : JsMap) (h : goodMap m) :
    (mapValues m).Pairwise emailKeyNe := by
  obtain ⟨h1, h2⟩ := h
  have hkeys : m.map Prod.fst = (mapValues m).map (fun r => lowerStr r.email) := by
    unfold mapValues
    rw [List.map_map]
    apply List.map_congr_left
    intro p hp
    exact h2 p hp
  rw [hkeys] at h1
  have h1' : ((mapValues m).map (fun r => lowerStr r.email)).Pairwise
      (fun a b => a ≠ b) := h1
  have h2' := List.pairwise_map.mp h1'
  exact h2'

theorem emailKeyNe_symm : ∀ {a b : Recipient}, emailKeyNe a b → emailKeyNe b a :=
  fun h => Ne.symm h

theorem sortByDisplayName_perm (l : List Recipient) :
    List.Perm (sortByDisplayName l) l :=
  List.perm_insertionSort dnLe l

theorem sortByDisplayName_pairwise {l : List Recipient}
    (h : l.Pairwise emailKeyNe) : (sortByDisplayName l).Pairwise emailKeyNe :=
  ((sortByDisplayName_perm l).pairwise_iff emailKeyNe_symm).mpr h

theorem sortByDisplayName_sorted (l : List Recipient) :
    List.Sorted dnLe (sortByDisplayName l) :=
  @List.sorted_insertionSort Recipient dnLe _ ⟨fun a b => dnLe_total a b⟩
    ⟨fun a b c h₁ h₂ => dnLe_trans a b c h₁ h₂⟩ l

theorem resolveMerge_ok (contacts colleagues l : List Recipient)
    (h : resolveMerge contacts colleagues = .ok l) :
    l = sortByDisplayName (mapValues (mergeByEmail contacts colleagues)) := by
  unfold resolveMerge at h
  split at h
  · exact absurd h (by simp)
  · exact (Except.ok.inj h).symm

/- ### Server invariant helpers -/

theorem handleEvent_open_inv (s : ServerState) (e : ServerEvent)
    (h : (s.isOpen = true ∧ s.closeCalls = 0) ∨ (s.isOpen = false ∧ s.closeCalls = 1)) :
    ((handleEvent s e).isOpen = true ∧ (handleEvent s e).closeCalls = 0) ∨
      ((handleEvent s e).isOpen = false ∧ (handleEvent s e).closeCalls = 1) := by
  cases e with
  | errorEvent msg => simpa [handleEvent] using h
  | request pathname code =>
    by_cases ho : s.isOpen = true
    · by_cases hp : pathname = "/auth/callback"
      · rcases h with ⟨_, hc⟩ | ⟨hno, _⟩
        · exact Or.inr (by simp [handleEvent, ho, hp, hc])
        · rw [ho] at hno; exact Bool.noConfusion hno
      · have hid : handleEvent s (.request pathname code) = s := by
          simp [handleEvent, ho, hp]
        rw [hid]; exact h
    · have hid : handleEvent s (.request pathname code) = s := by
        simp [handleEvent, ho]
      rw [hid]; exact h

theorem runServer_close_inv (events : List ServerEvent) :
    ∀ s : ServerState,
      ((s.isOpen = true ∧ s.closeCalls = 0) ∨ (s.isOpen = false ∧ s.closeCalls = 1)) →
      (((events.foldl handleEvent s).isOpen = true ∧
          (events.foldl handleEvent s).closeCalls = 0) ∨
        ((events.foldl handleEvent s).isOpen = false ∧
          (events.foldl handleEvent s).closeCalls = 1)) := by
  induction events with
  | nil => intro s h; exact h
  | cons e rest ih =>
    intro s h
    rw [List.foldl_cons]
    exact ih _ (handleEvent_open_inv s e h)

/- ### Claim theorems -/

/-- Claim C10: for every selected text and language id,
`formatCodeSnippet` returns exactly the fenced code block wrapping the
selection verbatim, with an empty language part when the id is null. -/
theorem claim10_formatCodeSnippet_shape (t l : String) :
    formatCodeSnippet t (some l) = "```" ++ l ++ "\n" ++ t ++ "\n```" ∧
      formatCodeSnippet t none = "```\n" ++ t ++ "\n```" := by
  constructor
  · rfl
  · show "```" ++ "" ++ "\n" ++ t ++ "\n```" = "```\n" ++ t ++ "\n```"
    rfl

/-- Claim C4 counterexample: silent acquisition fails with
`invalid_grant` while a cache file is on disk; `getSilentToken` reports
the miss (`none`) and the cache file is still present afterwards, so it
was not deleted before the miss was reported. -/
theorem claim4_cex_cache_file_kept_on_invalid_grant :
    (getSilentToken c4Client c2Fs).1 = none ∧
      (getSilentToken c4Client c2Fs).2.cacheFile = some "cacheblob" :=
  ⟨rfl, rfl⟩

/-- Claim C4 amended: on every silent-acquisition outcome — including
`invalid_grant` and `no_tokens_found` — `getSilentToken` leaves the
filesystem state untouched; the cache file is never cleared there. -/
theorem claim4_amended_silent_never_touches_fs (cca : MsalClient) (st : FsState) :
    (getSilentToken cca st).2 = st := by
  obtain ⟨accs, acq⟩ := cca
  cases accs with
  | nil => rfl
  | cons a rest =>
    simp only [getSilentToken]
    split
    · split <;> rfl
    · rfl

/-- Claim C7 counterexample: with a cache file the authentication
library cannot deserialize, `initializeAuth` continues softly but the
corrupt file is left on disk, so a subsequent load does not start
clean. -/
theorem claim7_cex_corrupt_file_left :
    (initializeAuth c7Env c7Fs).memCacheLoaded = false ∧
      (initializeAuth c7Env c7Fs).fs.cacheFile = some "corrupt" ∧
      (initializeAuth c7Env c7Fs).fs.cacheFile ≠ none := by
  refine ⟨rfl, rfl, ?_⟩
  intro h
  exact Option.noConfusion h

/-- Claim C7 amended: a read or parse failure during initialization is
soft — the function returns normally with the in-memory cache loaded
exactly when the file was present and parseable — but the cache file on
disk is never removed, so a corrupt file persists. -/
theorem claim7_amended_soft_failure_keeps_file (env : InitEnv) (fs : FsState) :
    (initializeAuth env fs).fs.cacheFile = fs.cacheFile ∧
      (initializeAuth env fs).fs.dirExists = true ∧
      ((initializeAuth env fs).memCacheLoaded = true ↔
        ∃ blob, fs.cacheFile = some blob ∧ env.parses blob = true) := by
  obtain ⟨d, file⟩ := fs
  cases file with
  | none => simp [initializeAuth]
  | some blob =>
    cases hp : env.parses blob with
    | true => simp [initializeAuth, hp]
    | false =>
      refine ⟨by simp [initializeAuth, hp], by simp [initializeAuth, hp], ?_⟩
      simp only [initializeAuth]
      rw [if_neg (by simp [hp])]
      constructor
      · intro h
        exact Bool.noConfusion h
      · rintro ⟨b, hb, hpb⟩
        injection hb with hb
        rw [hb] at hp
        rw [hp] at hpb
        exact Bool.noConfusion hpb

/-- Claim C6 counterexample: a listener-level error rejects the promise
— an exit path of the flow — while the server remains open and
`close` was never called, contradicting that the listener is closed on
every exit path. -/
theorem claim6_cex_error_leaves_listener_open :
    (runServer c6Events).promise = .rejected "Server error: listen EADDRINUSE" ∧
      (runServer c6Events).isOpen = true ∧
      (runServer c6Events).closeCalls = 0 :=
  ⟨rfl, rfl, rfl⟩

/-- Claim C6 amended: the listener is closed exactly once when the
single matching callback request is handled (with or without a code
parameter) and is never closed twice; but a listener-level error only
rejects the promise and leaves the server open. -/
theorem claim6_amended_close_only_on_callback :
    (∀ events : List ServerEvent,
      ((runServer events).isOpen = true ∧ (runServer events).closeCalls = 0) ∨
        ((runServer events).isOpen = false ∧ (runServer events).closeCalls = 1)) ∧
      (∀ msg : String,
        (runServer [.errorEvent msg]).promise = .rejected ("Server error: " ++ msg) ∧
          (runServer [.errorEvent msg]).isOpen = true ∧
          (runServer [.errorEvent msg]).closeCalls = 0) ∧
      (∀ code : Option String,
        (runServer [.request "/auth/callback" code]).isOpen = false ∧
          (runServer [.request "/auth/callback" code]).closeCalls = 1) := by
  refine ⟨?_, ?_, ?_⟩
  · intro events
    exact runServer_close_inv events initialServer (Or.inl ⟨rfl, rfl⟩)
  · intro msg
    exact ⟨rfl, rfl, rfl⟩
  · intro code
    cases code <;> exact ⟨rfl, rfl⟩

/-- Claim C2 counterexample: a cached token granted exactly
`Chat.ReadWrite` and `User.Read` — strictly narrower than the full
scope set the interactive flow acquires, which also contains
`ChatMessage.Send` — is returned by the silent lookup instead of being
treated as a miss. -/
theorem claim2_cex_narrow_token_returned :
    (getSilentToken (msalClientOf [c2Token]) c2Fs).1 = some "tok" ∧
      (∀ s ∈ c2Token.grantedScopes, s ∈ interactiveScopes) ∧
      "ChatMessage.Send" ∈ interactiveScopes ∧
      "ChatMessage.Send" ∉ c2Token.grantedScopes :=
  ⟨by decide, by decide, by decide, by decide⟩

/-- Claim C2 amended: the silent request asks only for the two scopes
`Chat.ReadWrite` and `User.Read` — a proper subset of the interactive
scope set — and a token is returned from silent lookup only when its
granted scopes cover those two requested scopes; coverage of
`ChatMessage.Send` is not required. -/
theorem claim2_amended_silent_covers_requested (cache : List CachedToken) (st : FsState)
    (tok : String) (h : (getSilentToken (msalClientOf cache) st).1 = some tok) :
    (∃ t ∈ cache, t.accessToken = tok ∧ ∀ s ∈ silentScopes, s ∈ t.grantedScopes) ∧
      "ChatMessage.Send" ∈ interactiveScopes ∧
      "ChatMessage.Send" ∉ silentScopes := by
  refine ⟨?_, by decide, by decide⟩
  unfold getSilentToken msalClientOf at h
  cases cache with
  | nil => exact absurd h (by simp)
  | cons t ts =>
    simp only [List.map_cons] at h
    unfold msalSilent at h
    cases hf : List.find? (fun u =>
        decide (u.account = t.account) &&
          silentScopes.all (fun s => u.grantedScopes.contains s)) (t :: ts) with
    | none =>
      rw [hf] at h
      exact absurd h (by simp)
    | some u =>
      rw [hf] at h
      have h2 : (if u.accessToken ≠ "" then ((some u.accessToken : Option String), st)
          else (none, st)).1 = some tok := h
      have hmem : u ∈ t :: ts := List.mem_of_find?_eq_some hf
      have hpred := List.find?_some hf
      rw [Bool.and_eq_true] at hpred
      have hall := List.all_eq_true.mp hpred.2
      refine ⟨u, hmem, ?_, ?_⟩
      · by_cases hne : u.accessToken ≠ ""
        · rw [if_pos hne] at h2
          exact Option.some.inj h2
        · rw [if_neg hne] at h2
          exact absurd h2 (by simp)
      · intro s hs
        have hc := hall s hs
        simpa using hc

/-- Claim C2 amended witness: the counterexample token covers the two
silent scopes, so the amended statement applies to it. -/
theorem claim2_amended_witness :
    (∃ t ∈ [c2Token], t.accessToken = "tok" ∧ ∀ s ∈ silentScopes, s ∈ t.grantedScopes) ∧
      "ChatMessage.Send" ∈ interactiveScopes ∧
      "ChatMessage.Send" ∉ silentScopes :=
  claim2_amended_silent_covers_requested [c2Token] c2Fs "tok" (by decide)

/-- Claim C9 counterexample: account removal throws while a cache file
exists; `signOut` reports the error but returns with the cache file
still on disk — the deletion is not attempted. -/
theorem claim9_cex_no_deletion_on_removal_error :
    signOut c9Env c2Fs = (c2Fs, true) ∧ c2Fs.cacheFile = some "cacheblob" :=
  ⟨rfl, rfl⟩

/-- Claim C9 amended: when enumerating or removing a cached account
throws, `signOut` reports the error and returns with the filesystem
untouched; the cache-file deletion is not attempted (it only runs after
all removals succeed). -/
theorem claim9_amended_removal_error_skips_deletion (env : SignOutEnv) (fs : FsState)
    (h : ∀ accounts, env.getAllAccountsResult = .ok accounts →
      removeAll env accounts ≠ .ok ()) :
    signOut env fs = (fs, true) := by
  cases hacc : env.getAllAccountsResult with
  | error e => simp [signOut, hacc]
  | ok accounts =>
    cases hrem : removeAll env accounts with
    | error e => simp [signOut, hacc, hrem]
    | ok u =>
      cases u
      exact absurd hrem (h accounts hacc)

/-- Claim C9 amended witness: with a removal that always throws, the
file stays and the error is reported. -/
theorem claim9_amended_witness : signOut c9Env c2Fs = (c2Fs, true) :=
  claim9_amended_removal_error_skips_deletion c9Env c2Fs (by
    intro accounts hacc
    injection hacc with h
    rw [← h]
    decide)

/-- Claim C1: both recipient arrays are deduplicated by lowercased
email — every pair of distinct entries in the array returned by
`getPotentialRecipients`, and in the array `getRecipients` builds after
merging manual entries, has different lowercased emails. -/
theorem claim1_unique_lowercased_emails (env : RecipientsEnv) (l1 : List Recipient)
    (rc : Option (List Recipient)) (lf : Option Nat) (now : Nat)
    (api : List Recipient) (manual : List String)
    (h1 : getPotentialRecipients env = .ok l1)
    (h2 : cacheValid rc lf now = false) :
    l1.Pairwise emailKeyNe ∧ (getRecipients rc lf now api manual).1.Pairwise emailKeyNe := by
  constructor
  · unfold getPotentialRecipients at h1
    rw [resolveMerge_ok _ _ _ h1]
    exact sortByDisplayName_pairwise (goodMap_values_pairwise _
      (goodMap_insertRecipients _ _ (goodMap_insertRecipients _ _ goodMap_nil)))
  · unfold getRecipients
    rw [if_neg (by simp [h2])]
    exact goodMap_values_pairwise _
      (goodMap_insertManuals _ _ (goodMap_insertApiRecipients _ _ goodMap_nil))

/-- Claim C1 witness: a one-contact resolution and a fresh
`getRecipients` merge both satisfy the dedup invariant. -/
theorem claim1_witness :
    ([c3ContactRecipient] : List Recipient).Pairwise emailKeyNe ∧
      (getRecipients none none 0 [c3ContactRecipient] ["b@y.com"]).1.Pairwise emailKeyNe :=
  claim1_unique_lowercased_emails c1Env [c3ContactRecipient] none none 0
    [c3ContactRecipient] ["b@y.com"] (by decide) rfl

/-- Claim C5 counterexample: the resolver returns the sorted API set
containing only Zed; `getRecipients` appends the manual recipient
(display name amy at x dot com) after it without re-sorting, so the
final array handed to the caller is not sorted by display name. -/
theorem claim5_cex_manual_entry_breaks_sort :
    getPotentialRecipients c5EnvZed = .ok [c5ZedRecipient] ∧
      (getRecipients none none 0 [c5ZedRecipient] ["amy@x.com"]).1 =
        [c5ZedRecipient, manualEntry "amy@x.com"] ∧
      ¬ List.Sorted dnLe (getRecipients none none 0 [c5ZedRecipient] ["amy@x.com"]).1 :=
  ⟨by decide, by decide, by decide⟩

/-- Claim C5 amended: the array returned by `getPotentialRecipients` is
sorted ascending by display name under the locale-aware comparison;
`getRecipients` appends manual entries after those API-sourced entries
without re-sorting, so only the API-sourced set is guaranteed sorted. -/
theorem claim5_amended_api_set_sorted (env : RecipientsEnv) (l : List Recipient)
    (h : getPotentialRecipients env = .ok l) : List.Sorted dnLe l := by
  unfold getPotentialRecipients at h
  rw [resolveMerge_ok _ _ _ h]
  exact sortByDisplayName_sorted _

/-- Claim C5 amended witness: contacts fetched as Zed then Amy resolve
to the sorted array Amy then Zed. -/
theorem claim5_amended_witness : List.Sorted dnLe [c5AmyRecipient, c5ZedRecipient] :=
  claim5_amended_api_set_sorted c5EnvBoth [c5AmyRecipient, c5ZedRecipient] (by decide)

/-- Claim C3 counterexample: a direct contact with department Sales and
a people entry with the same lowercased email and department Eng: the
people entry — the later source — is dropped by the dedup filter inside
`getContacts`, so the merged entry keeps department Sales, not Eng. -/
theorem claim3_cex_people_entry_does_not_overwrite :
    getContacts c3Env = .ok [c3ContactRecipient] ∧
      lowerStr "a@x.com" = lowerStr "A@X.com" ∧
      c3Contact.department = "Sales" ∧ c3Person.department = "Eng" ∧
      c3ContactRecipient.department = "Sales" ∧
      c3ContactRecipient.department ≠ "Eng" :=
  ⟨by decide, by decide, rfl, rfl, rfl, by decide⟩

/-- Claim C3 amended: between the two arguments of the final merge in
`getPotentialRecipients` the later source does overwrite — a colleague
sharing a contact's lowercased email replaces it entirely — but inside
`getContacts` the later sources (people, users) are filtered out on a
duplicated email, the earlier source winning.  For a single contact and
a single colleague with the same lowercased email the resolver returns
exactly the colleague entry. -/
theorem claim3_amended_colleague_overwrites (env : RecipientsEnv) (c l : Recipient)
    (hc : getContacts env.contactsEnv = .ok [c])
    (hl : getColleagues env.colleaguesEnv = [l])
    (hce : c.email ≠ "") (hle : l.email ≠ "")
    (hkey : lowerStr c.email = lowerStr l.email) :
    getPotentialRecipients env = .ok [l] := by
  simp only [getPotentialRecipients, hc, hl]
  unfold resolveMerge
  rw [if_neg (by simp)]
  have hmerge : mergeByEmail [c] [l] = [(lowerStr l.email, l)] := by
    unfold mergeByEmail insertRecipients
    simp only [List.foldl_cons, List.foldl_nil]
    rw [if_pos hce, if_pos hle]
    unfold mapSet
    simp [hkey]
  rw [hmerge]
  simp [mapValues, sortByDisplayName, List.insertionSort, List.orderedInsert]

/-- Claim C3 amended witness: the literal example — contact with email
a at x dot com and department Sales, colleague with email A at X dot
com and department Eng — resolves to the single colleague entry whose
department is Eng. -/
theorem claim3_amended_witness :
    getPotentialRecipients c3RecEnv = .ok [c3ColleagueRecipient] ∧
      c3ColleagueRecipient.department = "Eng" :=
  ⟨claim3_amended_colleague_overwrites c3RecEnv c3ContactRecipient c3ColleagueRecipient
      (by decide) (by decide) (by decide) (by decide) (by decide), rfl⟩

/-- Claim C8: when the profile fetch succeeds, the direct-contacts
endpoint is rejected with HTTP 403, the people endpoint succeeds with
exactly one mappable entry, and the remaining sources (users fallback,
colleagues) yield nothing, the resolver returns exactly that entry as a
success — no exception from the failed contacts source propagates. -/
theorem claim8_partial_failure_single_entry (env : RecipientsEnv)
    (prof : UserProfile) (e1 e2 : GraphError) (p : RawPerson) (r : Recipient)
    (hprof : env.contactsEnv.profile = .ok prof)
    (hcont : env.contactsEnv.contactsResp = .error e1)
    (_hstatus : e1.status = some 403)
    (hppl : env.contactsEnv.peopleResp = .ok (some [p]))
    (hp : personToRecipient p = some r)
    (hre : r.email ≠ "")
    (husers : env.contactsEnv.usersResp = .error e2)
    (hcoll : getColleagues env.colleaguesEnv = []) :
    getPotentialRecipients env = .ok [r] := by
  have hc : getContacts env.contactsEnv = .ok [r] := by
    simp [getContacts, hprof, hcont, hppl, husers, hp, dedupAppend]
  simp only [getPotentialRecipients, hc, hcoll]
  unfold resolveMerge
  rw [if_neg (by simp)]
  have hmerge : mergeByEmail [r] [] = [(lowerStr r.email, r)] := by
    unfold mergeByEmail insertRecipients
    simp only [List.foldl_cons, List.foldl_nil]
    rw [if_pos hre]
    unfold mapSet
    simp
  rw [hmerge]
  simp [mapValues, sortByDisplayName, List.insertionSort, List.orderedInsert]

/-- Claim C8 witness: the scenario evaluated on concrete inputs. -/
theorem claim8_witness : getPotentialRecipients c8Env = .ok [c8Recipient] :=
  claim8_partial_failure_single_entry c8Env c3Profile { status := some 403 } {}
    c8Person c8Recipient rfl rfl rfl rfl (by decide) (by decide) rfl rfl
